import Mathlib

/-!
Verification development for the strum repository.

This file gives a shallow embedding of the two core source files,
src/lib/music-theory.ts and src/lib/audio-engine.ts, and proves or refutes
the specification claims about them.

Modelling conventions:
- TypeScript numbers that hold whole-number counts (bars, beats, indices)
  become Nat; the tempo (an arbitrary number fed to the transport) becomes Int;
  transport times and progress fractions become ℚ.
- The Tone.js transport is modelled by explicit fields on the engine state
  (scheduled events, started flag, loop flag, loop end in bars, bpm), and the
  side effects of start() are additionally recorded as an ordered Action trace.
- Scheduled callbacks are modelled as pure state-transition functions that
  also return the list of outward notifications / audio triggers they emit.
-/

namespace Strum

/-! ## music-theory.ts -/

/-- Embedding of the TS union type
    `type Key = 'C' | 'C#' | ... | 'B'` (src/lib/music-theory.ts line 1). -/
inductive Key where
  | C | Cs | D | Ds | E | F | Fs | G | Gs | A | As | B
deriving DecidableEq, Fintype

/-- String value of each Key constructor, exactly the TS string literals. -/
def Key.toName : Key → String
  | .C => "C"
  | .Cs => "C#"
  | .D => "D"
  | .Ds => "D#"
  | .E => "E"
  | .F => "F"
  | .Fs => "F#"
  | .G => "G"
  | .Gs => "G#"
  | .A => "A"
  | .As => "A#"
  | .B => "B"

/-- `type KeyMode = 'major' | 'minor'` (line 3). -/
inductive KeyMode where
  | major | minor
deriving DecidableEq, Fintype

/-- `type NashvilleNumber = 1 | 2 | 3 | 4 | 5 | 6 | 7` (line 5). -/
inductive NashvilleNumber where
  | n1 | n2 | n3 | n4 | n5 | n6 | n7
deriving DecidableEq, Fintype

/-- Numeric value of a NashvilleNumber. -/
def NashvilleNumber.toNat : NashvilleNumber → Nat
  | .n1 => 1
  | .n2 => 2
  | .n3 => 3
  | .n4 => 4
  | .n5 => 5
  | .n6 => 6
  | .n7 => 7

/-- `type ChordQuality = 'maj' | 'min' | 'dim'` (line 7). -/
inductive ChordQuality where
  | maj | min | dim
deriving DecidableEq, Fintype

/-- `interface Chord { root; quality; name }` (lines 9-13). -/
structure Chord where
  root : String
  quality : ChordQuality
  name : String
deriving DecidableEq

/-- `MAJOR_DIATONIC_QUALITIES` record (lines 16-24). -/
def MAJOR_DIATONIC_QUALITIES : NashvilleNumber → ChordQuality
  | .n1 => .maj
  | .n2 => .min
  | .n3 => .min
  | .n4 => .maj
  | .n5 => .maj
  | .n6 => .min
  | .n7 => .dim

/-- `MINOR_DIATONIC_QUALITIES` record (lines 27-35). -/
def MINOR_DIATONIC_QUALITIES : NashvilleNumber → ChordQuality
  | .n1 => .min
  | .n2 => .dim
  | .n3 => .maj
  | .n4 => .min
  | .n5 => .min
  | .n6 => .maj
  | .n7 => .maj

/-- `CHROMATIC_NOTES` (line 38): the twelve chromatic note names starting
    from C, written in cons form. -/
def CHROMATIC_NOTES : List String :=
  "C" :: "C#" :: "D" :: "D#" :: "E" :: "F" ::
    "F#" :: "G" :: "G#" :: "A" :: "A#" :: "B" :: []

/-- `MAJOR_SCALE_INTERVALS = [0, 2, 4, 5, 7, 9, 11]` (line 41). -/
def MAJOR_SCALE_INTERVALS : List Nat := [0, 2, 4, 5, 7, 9, 11]

/-- `MINOR_SCALE_INTERVALS = [0, 2, 3, 5, 7, 8, 10]` (line 44). -/
def MINOR_SCALE_INTERVALS : List Nat := [0, 2, 3, 5, 7, 8, 10]

/-- `getKeyIndex(key) = CHROMATIC_NOTES.indexOf(key)` (lines 49-51). -/
def getKeyIndex (key : Key) : Nat :=
  CHROMATIC_NOTES.indexOf key.toName

/-- `getDiatonicQualities(mode)` (lines 56-58). -/
def getDiatonicQualities (mode : KeyMode) : NashvilleNumber → ChordQuality :=
  match mode with
  | .minor => MINOR_DIATONIC_QUALITIES
  | .major => MAJOR_DIATONIC_QUALITIES

/-- `getScaleIntervals(mode)` (lines 63-65). -/
def getScaleIntervals (mode : KeyMode) : List Nat :=
  match mode with
  | .minor => MINOR_SCALE_INTERVALS
  | .major => MAJOR_SCALE_INTERVALS

/-- `nashvilleToChord(nashville, key, mode = 'major', qualityOverride?)`
    (lines 71-86).  The TS default arguments are passed explicitly by the
    engine call sites below.  List indexing `intervals[scaleDegree]` and
    `CHROMATIC_NOTES[chordRootIndex]` is always in range for the finite input
    types, so `getD` with a default is an exact embedding. -/
def nashvilleToChord (nashville : NashvilleNumber) (key : Key)
    (mode : KeyMode) (qualityOverride : Option ChordQuality) : Chord :=
  let keyIndex := getKeyIndex key
  let scaleDegree := nashville.toNat - 1
  let intervals := getScaleIntervals mode
  let semitones := intervals.getD scaleDegree 0
  let chordRootIndex := (keyIndex + semitones) % 12
  let chordRoot := CHROMATIC_NOTES.getD chordRootIndex ""
  let quality := qualityOverride.getD (getDiatonicQualities mode nashville)
  { root := chordRoot
    quality := quality
    name := chordRoot ++ (match quality with
      | .maj => ""
      | .min => "m"
      | .dim => "Â°") }

/-- Pitch class of a root note string: its index in the chromatic scale
    (used only to state spec claims about pitch classes). -/
def pitchClass (root : String) : Nat :=
  CHROMATIC_NOTES.indexOf root

/-- Scale interval table exactly as the spec words it
    (major: 0,2,4,5,7,9,11; natural minor: 0,2,3,5,7,8,10), written as a
    direct table for comparison against the source definition. -/
def specScaleInterval (mode : KeyMode) : NashvilleNumber → Nat
  | .n1 => 0
  | .n2 => 2
  | .n3 => match mode with | .major => 4 | .minor => 3
  | .n4 => 5
  | .n5 => 7
  | .n6 => match mode with | .major => 9 | .minor => 8
  | .n7 => match mode with | .major => 11 | .minor => 10

/-- Diatonic quality table exactly as the spec words it
    (major mode: maj,min,min,maj,maj,min,dim; minor mode:
    min,dim,maj,min,min,maj,maj). -/
def specDiatonicQuality (mode : KeyMode) : NashvilleNumber → ChordQuality
  | .n1 => match mode with | .major => .maj | .minor => .min
  | .n2 => match mode with | .major => .min | .minor => .dim
  | .n3 => match mode with | .major => .min | .minor => .maj
  | .n4 => match mode with | .major => .maj | .minor => .min
  | .n5 => match mode with | .major => .maj | .minor => .min
  | .n6 => match mode with | .major => .min | .minor => .maj
  | .n7 => match mode with | .major => .dim | .minor => .maj

/-! ## audio-engine.ts : data types -/

/-- `interface ChordEvent { nashville; bars; beats }`
    (src/lib/audio-engine.ts lines 4-8). -/
structure ChordEvent where
  nashville : NashvilleNumber
  bars : Nat
  beats : Nat
deriving DecidableEq

/-- `type StrumFrequency = 1 | 2 | 4` (line 11). -/
inductive StrumFrequency where
  | one | two | four
deriving DecidableEq, Fintype

/-- Numeric value of a StrumFrequency. -/
def StrumFrequency.toNat : StrumFrequency → Nat
  | .one => 1
  | .two => 2
  | .four => 4

/-- Beat offsets visited by the strum loop
    `for (let beat = 0; beat < chordBeats; beat += this.strumFrequency)`
    (line 391): exactly the multiples of the strum frequency below
    `chordBeats`, in increasing order. -/
def strumOffsets (sf : StrumFrequency) (chordBeats : Nat) : List Nat :=
  (List.range chordBeats).filter (fun beat => beat % sf.toNat == 0)

/-- One event registered on the transport by `scheduleEvents` (lines 357-429).
    Offsets are recorded in beats; the source formats the same offsets as
    `measureOffset + "m"` strings (chord changes) or `bars:beats:0` strings
    via `beatsToTime` (strums and beat ticks). -/
inductive SEvent where
  | chordChange (chordIndex : Nat) (nashville : NashvilleNumber) (offsetBeats : Nat)
  | strum (chordIndex : Nat) (nashville : NashvilleNumber)
      (offsetBeats : Nat) (durationBeats : Nat)
  | beatTick (beatNum : Nat) (offsetBeats : Nat) (progress : ℚ)
deriving DecidableEq

/-- The body of `scheduleEvents` (lines 357-429): walk the chord events in
    order keeping a running `beatOffset`, and for each slot register one
    chord-change event, the strum events of the strum loop (duration
    `min(strumFrequency, remainingBeats)` beats, line 395), and one beat tick
    per beat carrying `beat` within the slot and the progress fraction
    `absoluteBeat / totalBeats` (line 408). -/
def scheduleEventsAux (sf : StrumFrequency) (totalBeats : Nat) :
    Nat → Nat → List ChordEvent → List SEvent
  | _, _, [] => []
  | i, beatOffset, chord :: rest =>
    let chordBeats := chord.bars * 4 + chord.beats
    SEvent.chordChange i chord.nashville beatOffset
      :: (((strumOffsets sf chordBeats).map fun beat =>
            SEvent.strum i chord.nashville (beatOffset + beat)
              (min sf.toNat (chordBeats - beat)))
          ++ ((List.range chordBeats).map fun beat =>
                SEvent.beatTick beat (beatOffset + beat)
                  (((beatOffset + beat : Nat) : ℚ) / (totalBeats : ℚ)))
          ++ scheduleEventsAux sf totalBeats (i + 1) (beatOffset + chordBeats) rest)

/-- `chords.reduce((sum, chord) => sum + (chord.bars * 4) + chord.beats, 0)`
    (line 341). -/
def totalBeatsOf (chords : List ChordEvent) : Nat :=
  chords.foldl (fun sum chord => sum + chord.bars * 4 + chord.beats) 0

/-- The mutable fields of class AudioEngine (lines 27-34) together with the
    transport state the engine manipulates (lines 79-80, 139-147, 160,
    167-169). -/
structure EngineState where
  chordEvents : List ChordEvent
  currentKey : Key
  tempo : Int
  strumFrequency : StrumFrequency
  isPlaying : Bool
  currentChordIndex : Nat
  currentBeat : Nat
  totalBeats : Nat
  transportScheduled : List SEvent
  transportStarted : Bool
  transportLoop : Bool
  transportLoopEndBars : Nat
  transportBpm : Int
deriving DecidableEq

/-- Side effects of `start()` in the order the source performs them. -/
inductive Action where
  | toneStart
  | transportCancel
  | scheduleAll (events : List SEvent)
  | emitChordChange (nashville : NashvilleNumber) (chordName : String) (index : Nat)
  | transportStart
deriving DecidableEq

/-- `getChordName(nashville)` (lines 496-499): resolves with
    `nashvilleToChord(nashville, this.currentKey)`, i.e. with the TS default
    arguments mode = 'major' and no quality override. -/
def getChordName (key : Key) (nashville : NashvilleNumber) : String :=
  (nashvilleToChord nashville key KeyMode.major none).name

/-- The chord that `playChord` resolves (line 445):
    `nashvilleToChord(nashville, this.currentKey as Key)`, again with the TS
    default arguments mode = 'major' and no quality override. -/
def playChordResolved (key : Key) (nashville : NashvilleNumber) : Chord :=
  nashvilleToChord nashville key KeyMode.major none

/-- `const adjustedTime = Math.max(0, time - 0.1)` in `playChord` (line 456):
    the audio trigger time used for the bass and all chord notes, 100 ms
    before the nominal transport time, clamped at 0. -/
def adjustedTime (time : ℚ) : ℚ :=
  max 0 (time - 1 / 10)

/-- `async start()` (lines 116-162).  Returns the new state and the ordered
    trace of external actions.  `Math.ceil(extraBeats / 4)` on a nonnegative
    whole number equals `(extraBeats + 3) / 4` in Nat division.  The first
    chord-change notification is emitted when `chordEvents.length > 0`
    (line 154; the registered callback is modelled as present). -/
def start (s : EngineState) : EngineState × List Action :=
  if s.isPlaying then (s, [])
  else
    let s1 : EngineState :=
      { s with isPlaying := true, currentChordIndex := 0, currentBeat := 0 }
    let totalMeasures := s1.chordEvents.foldl (fun sum chord => sum + chord.bars) 0
    let extraBeats := s1.chordEvents.foldl (fun sum chord => sum + chord.beats) 0
    let totalBars := totalMeasures + (extraBeats + 3) / 4
    if totalBars = 0 then
      (s1, [Action.toneStart])
    else
      let events := scheduleEventsAux s1.strumFrequency s1.totalBeats 0 0 s1.chordEvents
      let s2 : EngineState :=
        { s1 with
            transportScheduled := events,
            transportLoop := true,
            transportLoopEndBars := totalBars,
            transportStarted := true }
      let emits : List Action :=
        match s1.chordEvents with
        | [] => []
        | firstChord :: _ =>
            [Action.emitChordChange firstChord.nashville
              (getChordName s1.currentKey firstChord.nashville) 0]
      (s2, [Action.toneStart, Action.transportCancel, Action.scheduleAll events]
            ++ emits ++ [Action.transportStart])

/-- `stop()` (lines 164-173). -/
def stop (s : EngineState) : EngineState :=
  if !s.isPlaying then s
  else
    { s with
        transportStarted := false,
        transportScheduled := [],
        transportLoop := false,
        isPlaying := false,
        currentChordIndex := 0,
        currentBeat := 0 }

/-- `setTempo(bpm)` (lines 175-178): stores the value and writes it to the
    transport bpm, with no clamping. -/
def setTempo (s : EngineState) (bpm : Int) : EngineState :=
  { s with tempo := bpm, transportBpm := bpm }

/-- `setChordProgression(chords)` (lines 339-355). -/
def setChordProgression (s : EngineState) (chords : List ChordEvent) : EngineState :=
  let s1 : EngineState := { s with chordEvents := chords, totalBeats := totalBeatsOf chords }
  if s1.isPlaying then
    let totalMeasures := chords.foldl (fun sum chord => sum + chord.bars) 0
    let extraBeats := chords.foldl (fun sum chord => sum + chord.beats) 0
    let totalBars := totalMeasures + (extraBeats + 3) / 4
    if 0 < totalBars then
      { s1 with
          transportLoopEndBars := totalBars,
          transportScheduled :=
            scheduleEventsAux s1.strumFrequency s1.totalBeats 0 0 chords }
    else s1
  else s1

/-- Outward effects of a fired callback: UI notifications and audio triggers. -/
inductive Emit where
  | chordChangeNotify (nashville : NashvilleNumber) (chordName : String) (index : Nat)
  | soundTrigger (nashville : NashvilleNumber) (durationBars : ℚ)
  | metronomeTick (beatNum : Nat)
  | beatNotify (beatNum : Nat)
  | progressNotify (progress : ℚ)
deriving DecidableEq

/-- Body of the scheduled chord-change callback (lines 377-387): set
    `currentChordIndex`, then notify with the chord name resolved at fire
    time.  The body contains no isPlaying check. -/
def chordChangeCallback (chordIndex : Nat) (nashville : NashvilleNumber)
    (s : EngineState) : EngineState × List Emit :=
  ({ s with currentChordIndex := chordIndex },
   [Emit.chordChangeNotify nashville (getChordName s.currentKey nashville) chordIndex])

/-- Body of the scheduled strum callback (lines 397-400): call `playChord`
    with duration `durationBeats / 4` bars.  No state mutation, no
    notification, no isPlaying check. -/
def strumCallback (nashville : NashvilleNumber) (durationBeats : Nat)
    (s : EngineState) : EngineState × List Emit :=
  (s, [Emit.soundTrigger nashville ((durationBeats : ℚ) / 4)])

/-- Body of the scheduled beat callback (lines 411-423): set `currentBeat`,
    play the metronome, then notify beat and progress.  The body contains no
    isPlaying check. -/
def beatCallback (beatNum : Nat) (progress : ℚ)
    (s : EngineState) : EngineState × List Emit :=
  ({ s with currentBeat := beatNum },
   [Emit.metronomeTick beatNum, Emit.beatNotify beatNum, Emit.progressNotify progress])

/-- The (offset, duration) pairs of the strum events in a scheduled event
    list, in registration order. -/
def strumEventsOf : List SEvent → List (Nat × Nat)
  | [] => []
  | SEvent.strum _ _ offsetBeats durationBeats :: rest =>
      (offsetBeats, durationBeats) :: strumEventsOf rest
  | SEvent.chordChange _ _ _ :: rest => strumEventsOf rest
  | SEvent.beatTick _ _ _ :: rest => strumEventsOf rest

/-! ## Concrete states used in witnesses and counterexamples -/

/-- Engine state right after the constructor (field initializers, lines
    27-34, and `this.transport.bpm.value = this.tempo`, line 80): key C,
    tempo 120, strum every 4 beats, stopped, nothing scheduled. -/
def freshEngine : EngineState :=
  { chordEvents := []
    currentKey := Key.C
    tempo := 120
    strumFrequency := StrumFrequency.four
    isPlaying := false
    currentChordIndex := 0
    currentBeat := 0
    totalBeats := 0
    transportScheduled := []
    transportStarted := false
    transportLoop := false
    transportLoopEndBars := 0
    transportBpm := 120 }

/-- The default progression of the app, `[{1,bars:2},{4,bars:2},{5,bars:2},{1,bars:2}]`. -/
def demoProg : List ChordEvent :=
  [{ nashville := NashvilleNumber.n1, bars := 2, beats := 0 },
   { nashville := NashvilleNumber.n4, bars := 2, beats := 0 },
   { nashville := NashvilleNumber.n5, bars := 2, beats := 0 },
   { nashville := NashvilleNumber.n1, bars := 2, beats := 0 }]

/-- A stopped engine loaded with the default progression. -/
def demoState : EngineState :=
  setChordProgression freshEngine demoProg

/-- Progression `[{1,bars:2},{4,bars:0,beats:0},{5,bars:2}]` containing a
    zero-duration slot. -/
def progWithZero : List ChordEvent :=
  [{ nashville := NashvilleNumber.n1, bars := 2, beats := 0 },
   { nashville := NashvilleNumber.n4, bars := 0, beats := 0 },
   { nashville := NashvilleNumber.n5, bars := 2, beats := 0 }]

/-- The same progression with the zero-duration slot removed. -/
def progWithout : List ChordEvent :=
  [{ nashville := NashvilleNumber.n1, bars := 2, beats := 0 },
   { nashville := NashvilleNumber.n5, bars := 2, beats := 0 }]

/-- A playing engine midway through the default progression. -/
def midwayState : EngineState :=
  { freshEngine with
      chordEvents := demoProg,
      totalBeats := totalBeatsOf demoProg,
      isPlaying := true,
      currentChordIndex := 2,
      currentBeat := 3,
      transportScheduled :=
        scheduleEventsAux StrumFrequency.four (totalBeatsOf demoProg) 0 0 demoProg,
      transportStarted := true,
      transportLoop := true,
      transportLoopEndBars := 8 }

/-! ## Helper lemmas -/

/-- Nat division rounding up agrees with the rational ceiling:
    `Math.ceil(e / 4)` for a nonnegative whole number e is `(e + 3) / 4`. -/
lemma ceil_div_four (e : ℕ) : ⌈(e : ℚ) / 4⌉₊ = (e + 3) / 4 := by
  induction e using Nat.strong_induction_on with
  | _ e ih =>
    rcases Nat.lt_or_ge e 4 with h | h
    · interval_cases e
      · simp
      · rw [Nat.ceil_eq_iff (by norm_num)]
        norm_num
      · rw [Nat.ceil_eq_iff (by norm_num)]
        norm_num
      · rw [Nat.ceil_eq_iff (by norm_num)]
        norm_num
    · have he : (e : ℚ) / 4 = ((e - 4 : ℕ) : ℚ) / 4 + 1 := by
        have h4 : ((e - 4 : ℕ) : ℚ) = (e : ℚ) - 4 := by
          push_cast [Nat.cast_sub h]
          ring
        rw [h4]
        ring
      rw [he, Nat.ceil_add_one (by positivity), ih (e - 4) (by omega)]
      omega

/-- `strumEventsOf` distributes over append. -/
lemma strumEventsOf_append (l1 l2 : List SEvent) :
    strumEventsOf (l1 ++ l2) = strumEventsOf l1 ++ strumEventsOf l2 := by
  induction l1 with
  | nil => simp [strumEventsOf]
  | cons e l ih => cases e <;> simp [strumEventsOf, ih]

/-- Mapped strum events project back to their (offset, duration) pairs. -/
lemma strumEventsOf_map_strum (i : Nat) (n : NashvilleNumber) (off : Nat)
    (f : Nat → Nat) (l : List Nat) :
    strumEventsOf (l.map fun b => SEvent.strum i n (off + b) (f b))
      = l.map fun b => (off + b, f b) := by
  induction l with
  | nil => simp [strumEventsOf]
  | cons b l ih => simp [strumEventsOf, ih]

/-- Mapped beat-tick events contribute no strum pairs. -/
lemma strumEventsOf_map_beatTick (g h : Nat → Nat) (q : Nat → ℚ) (l : List Nat) :
    strumEventsOf (l.map fun b => SEvent.beatTick (g b) (h b) (q b)) = [] := by
  induction l with
  | nil => simp [strumEventsOf]
  | cons b l ih => simp [strumEventsOf, ih]

/-- Membership in the strum loop offsets: exactly the multiples `k * sf`
    below `chordBeats`. -/
lemma mem_strumOffsets (sf : StrumFrequency) (chordBeats x : Nat) :
    x ∈ strumOffsets sf chordBeats
      ↔ ∃ k, x = k * sf.toNat ∧ k * sf.toNat < chordBeats := by
  constructor
  · intro hx
    simp only [strumOffsets, List.mem_filter, List.mem_range, beq_iff_eq] at hx
    obtain ⟨hlt, hmod⟩ := hx
    obtain ⟨k, hk⟩ := Nat.dvd_of_mod_eq_zero hmod
    refine ⟨k, ?_, ?_⟩
    · rw [hk, Nat.mul_comm]
    · rw [Nat.mul_comm k sf.toNat, ← hk]
      exact hlt
  · rintro ⟨k, rfl, hlt⟩
    simp only [strumOffsets, List.mem_filter, List.mem_range, beq_iff_eq]
    exact ⟨hlt, Nat.mul_mod_left k sf.toNat⟩

/-- Every beat tick registered by the scheduling pass carries the progress
    fraction computed from its own nominal beat offset. -/
lemma beatTick_progress (sf : StrumFrequency) (tb : Nat) :
    ∀ (chords : List ChordEvent) (i off beatNum o : Nat) (p : ℚ),
      SEvent.beatTick beatNum o p ∈ scheduleEventsAux sf tb i off chords →
        p = (o : ℚ) / (tb : ℚ) := by
  intro chords
  induction chords with
  | nil =>
    intro i off b o p h
    simp [scheduleEventsAux] at h
  | cons c rest ih =>
    intro i off b o p h
    simp only [scheduleEventsAux, List.mem_cons, List.mem_append, List.mem_map] at h
    rcases h with h | (⟨x, _, h⟩ | ⟨x, _, h⟩) | h
    · exact absurd h (by simp)
    · exact absurd h (by simp)
    · rw [SEvent.beatTick.injEq] at h
      obtain ⟨_, h2, h3⟩ := h
      rw [← h3, h2]
    · exact ih _ _ _ _ _ h

/-- `stop` always leaves the engine not playing and preserves the
    configuration fields. -/
lemma stop_fields (s : EngineState) :
    (stop s).isPlaying = false ∧ (stop s).chordEvents = s.chordEvents
      ∧ (stop s).currentKey = s.currentKey
      ∧ (stop s).strumFrequency = s.strumFrequency
      ∧ (stop s).totalBeats = s.totalBeats := by
  unfold stop
  cases hb : s.isPlaying <;> simp [hb]

/-! ## Claims -/

/-- Claim C1, counterexample: the progression `[{1,bars:2},{4,bars:0,beats:0},{5,bars:2}]`
    does NOT schedule the same number of events as `[{1,bars:2},{5,bars:2}]`:
    the zero-duration slot still gets a chord-change event, so the counts are
    23 and 22. -/
theorem claim_C1_cex :
    (scheduleEventsAux StrumFrequency.four (totalBeatsOf progWithZero) 0 0 progWithZero).length
      ≠ (scheduleEventsAux StrumFrequency.four (totalBeatsOf progWithout) 0 0 progWithout).length := by
  decide

/-- Claim C1, amended: a slot with zero duration contributes exactly one
    scheduled event — its chord-change — and no strum or beat-tick events,
    so a progression containing such a slot schedules one more event than the
    same progression with the slot removed. -/
theorem claim_C1 (sf : StrumFrequency) (tb i off : Nat) (c : ChordEvent)
    (rest : List ChordEvent) (hb : c.bars = 0) (he : c.beats = 0) :
    scheduleEventsAux sf tb i off (c :: rest)
      = SEvent.chordChange i c.nashville off
          :: scheduleEventsAux sf tb (i + 1) off rest := by
  simp [scheduleEventsAux, hb, he, strumOffsets]

/-- Claim C1 witness: the zero-duration slot `{4, bars:0, beats:0}` inside
    the C1 progression reduces to a lone chord-change event. -/
theorem claim_C1_witness :
    scheduleEventsAux StrumFrequency.four 16 1 8
        [{ nashville := NashvilleNumber.n4, bars := 0, beats := 0 },
         { nashville := NashvilleNumber.n5, bars := 2, beats := 0 }]
      = SEvent.chordChange 1 NashvilleNumber.n4 8
          :: scheduleEventsAux StrumFrequency.four 16 2 8
              [{ nashville := NashvilleNumber.n5, bars := 2, beats := 0 }] :=
  claim_C1 StrumFrequency.four 16 1 8
    { nashville := NashvilleNumber.n4, bars := 0, beats := 0 }
    [{ nashville := NashvilleNumber.n5, bars := 2, beats := 0 }] rfl rfl

/-- Claim C2: start() on a zero-total-beats progression schedules nothing and
    never starts the transport, but — contrary to the claim — it does NOT
    leave the playing flag false: `isPlaying` is set to true before the
    zero-length guard and stays true after the early return, so
    `getIsPlaying()` reports playing.  Evaluated at the failing input (empty
    progression). -/
theorem claim_C2 :
    (start freshEngine).1.isPlaying = true
      ∧ (start freshEngine).1.transportStarted = false
      ∧ (start freshEngine).1.transportScheduled = []
      ∧ (start freshEngine).2 = [Action.toneStart] := by
  decide

/-- Claim C3: for every slot, the scheduler registers strum events exactly at
    offsets `beatOffset + k * strumDivision` with `k * strumDivision <
    slotBeats`, each with duration `min(strumDivision, slotBeats - k *
    strumDivision)` beats; a slot of 6 beats with division 4 gets exactly the
    two strums (offset 0, duration 4) and (offset 4, duration 2). -/
theorem claim_C3 :
    (∀ (sf : StrumFrequency) (tb i off : Nat) (c : ChordEvent),
        strumEventsOf (scheduleEventsAux sf tb i off [c])
          = (strumOffsets sf (c.bars * 4 + c.beats)).map
              fun beat => (off + beat, min sf.toNat (c.bars * 4 + c.beats - beat)))
    ∧ (∀ (sf : StrumFrequency) (slotBeats x : Nat),
        x ∈ strumOffsets sf slotBeats
          ↔ ∃ k, x = k * sf.toNat ∧ k * sf.toNat < slotBeats)
    ∧ (∀ tb : Nat,
        strumEventsOf (scheduleEventsAux StrumFrequency.four tb 0 0
            [{ nashville := NashvilleNumber.n1, bars := 1, beats := 2 }])
          = [(0, 4), (4, 2)]) := by
  refine ⟨?_, mem_strumOffsets, fun tb => rfl⟩
  intro sf tb i off c
  simp [scheduleEventsAux, strumEventsOf, strumEventsOf_append,
    strumEventsOf_map_strum, strumEventsOf_map_beatTick]

/-- Claim C6: for every degree, key, mode and optional override, the resolver
    returns root pitch class `(keyIndex + scaleInterval(degree, mode)) mod 12`
    from the interval tables (major 0,2,4,5,7,9,11; natural minor
    0,2,3,5,7,8,10) and quality `qualityOverride` when present, else the
    diatonic quality table for the mode; in particular degree 3 in C minor is
    pitch class 3 (D#) with major quality, and degree 1 in C major is root C,
    major quality, display name "C". -/
theorem claim_C6 :
    (∀ (n : NashvilleNumber) (k : Key) (mode : KeyMode) (o : Option ChordQuality),
        pitchClass (nashvilleToChord n k mode o).root
            = (getKeyIndex k + specScaleInterval mode n) % 12
          ∧ (nashvilleToChord n k mode o).quality = o.getD (specDiatonicQuality mode n))
    ∧ nashvilleToChord NashvilleNumber.n3 Key.C KeyMode.minor none
        = { root := "D#", quality := ChordQuality.maj, name := "D#" }
    ∧ pitchClass "D#" = 3
    ∧ nashvilleToChord NashvilleNumber.n1 Key.C KeyMode.major none
        = { root := "C", quality := ChordQuality.maj, name := "C" } := by
  refine ⟨by decide, by decide, by decide, by decide⟩

/-- Claim C9, counterexample: setTempo(1000) sets the clock rate to 1000,
    not min(300, max(60, 1000)) = 300 — the engine does not clamp. -/
theorem claim_C9_cex :
    (setTempo freshEngine 1000).transportBpm ≠ min 300 (max 60 (1000 : Int)) := by
  decide

/-- Claim C9, amended: setTempo applies the requested value directly with no
    clamping: after setTempo(t) the stored tempo and the clock rate both
    equal t (the 60 to 300 range is not enforced by the engine; the UI slider
    separately restricts input to 60 to 200). -/
theorem claim_C9 :
    ∀ (s : EngineState) (bpm : Int),
      (setTempo s bpm).tempo = bpm ∧ (setTempo s bpm).transportBpm = bpm :=
  fun _ _ => ⟨rfl, rfl⟩

/-- Claim C10: playback resolves every chord with the default major mode and
    no quality override: the playback event type carries only degree, bars
    and beats, and both the strum path (`playChord`) and the chord-name path
    (`getChordName`) call the resolver as `nashvilleToChord(degree,
    currentKey)` with mode and override left at their defaults. -/
theorem claim_C10 :
    (∀ (k : Key) (n : NashvilleNumber),
        playChordResolved k n = nashvilleToChord n k KeyMode.major none
          ∧ getChordName k n = (nashvilleToChord n k KeyMode.major none).name)
    ∧ (∀ ev : ChordEvent,
        ev = { nashville := ev.nashville, bars := ev.bars, beats := ev.beats }) :=
  ⟨fun _ _ => ⟨rfl, rfl⟩, fun _ => rfl⟩

/-- Claim C4: the loop boundary in bars computed at start() equals the sum of
    the slots' bars plus ceil((sum of extra beats) / 4); it does not depend on
    the tempo; and for the default progression
    `[{1,bars:2},{4,bars:2},{5,bars:2},{1,bars:2}]` the total length is 32
    beats and the loop boundary is 8 bars at any tempo. -/
theorem claim_C4 :
    (∀ s : EngineState, s.isPlaying = false →
        0 < s.chordEvents.foldl (fun sum c => sum + c.bars) 0
            + ⌈((s.chordEvents.foldl (fun sum c => sum + c.beats) 0 : ℕ) : ℚ) / 4⌉₊ →
        (start s).1.transportLoopEndBars
          = s.chordEvents.foldl (fun sum c => sum + c.bars) 0
            + ⌈((s.chordEvents.foldl (fun sum c => sum + c.beats) 0 : ℕ) : ℚ) / 4⌉₊)
    ∧ (∀ (bpm : Int) (s : EngineState),
        (start (setTempo s bpm)).1.transportLoopEndBars
          = (start s).1.transportLoopEndBars)
    ∧ totalBeatsOf demoProg = 32
    ∧ (∀ bpm : Int, (start (setTempo demoState bpm)).1.transportLoopEndBars = 8) := by
  refine ⟨?_, ?_, by decide, ?_⟩
  · intro s hns hpos
    rw [ceil_div_four] at hpos ⊢
    have hne := Nat.pos_iff_ne_zero.mp hpos
    simp [start, hns, hne]
  · intro bpm s
    cases hb : s.isPlaying
    · by_cases h0 : s.chordEvents.foldl (fun sum c => sum + c.bars) 0
          + (s.chordEvents.foldl (fun sum c => sum + c.beats) 0 + 3) / 4 = 0
      · simp [start, setTempo, hb, h0]
      · simp [start, setTempo, hb, h0]
    · simp [start, setTempo, hb]
  · intro bpm
    simp [start, setTempo, demoState, setChordProgression, freshEngine, demoProg,
      totalBeatsOf]

/-- Claim C4 witness: the default progression loaded into a stopped engine
    satisfies the hypotheses, and its computed loop boundary matches the
    bars-plus-ceiling formula. -/
theorem claim_C4_witness :
    demoState.isPlaying = false
      ∧ (start demoState).1.transportLoopEndBars
          = demoState.chordEvents.foldl (fun sum c => sum + c.bars) 0
            + ⌈((demoState.chordEvents.foldl (fun sum c => sum + c.beats) 0 : ℕ) : ℚ) / 4⌉₊ :=
  ⟨rfl, claim_C4.1 demoState rfl (by rw [ceil_div_four]; decide)⟩

/-- Claim C5, counterexample: a scheduled chord-change callback firing on a
    stopped engine is NOT a no-op: it still mutates `currentChordIndex`
    (0 becomes 1) and still emits a notification.  The callback bodies contain
    no liveness check. -/
theorem claim_C5_cex :
    freshEngine.isPlaying = false
      ∧ (chordChangeCallback 1 NashvilleNumber.n4 freshEngine).1.currentChordIndex = 1
      ∧ freshEngine.currentChordIndex = 0
      ∧ (chordChangeCallback 1 NashvilleNumber.n4 freshEngine).2 ≠ [] := by
  decide

/-- Claim C5, amended: no scheduled callback body checks whether the session
    is still Playing: even on a stopped engine a chord-change callback sets
    `currentChordIndex` and emits its notification, a beat callback sets
    `currentBeat` and emits metronome/beat/progress effects, and a strum
    callback triggers sound; suppression of stale callbacks relies entirely on
    `transport.cancel()` removing the scheduled events inside stop(). -/
theorem claim_C5 (s : EngineState) (i : Nat) (n : NashvilleNumber)
    (b d : Nat) (p : ℚ) (hstopped : s.isPlaying = false) :
    (chordChangeCallback i n s).1.currentChordIndex = i
      ∧ (chordChangeCallback i n s).2
          = [Emit.chordChangeNotify n (getChordName s.currentKey n) i]
      ∧ (beatCallback b p s).1.currentBeat = b
      ∧ (beatCallback b p s).2
          = [Emit.metronomeTick b, Emit.beatNotify b, Emit.progressNotify p]
      ∧ (strumCallback n d s).2 = [Emit.soundTrigger n ((d : ℚ) / 4)] :=
  ⟨rfl, rfl, rfl, rfl, rfl⟩

/-- Claim C5 witness: the amended statement evaluated on the fresh (stopped)
    engine. -/
theorem claim_C5_witness :
    freshEngine.isPlaying = false
      ∧ (chordChangeCallback 1 NashvilleNumber.n5 freshEngine).1.currentChordIndex = 1
      ∧ (beatCallback 2 0 freshEngine).1.currentBeat = 2 :=
  ⟨rfl, (claim_C5 freshEngine 1 NashvilleNumber.n5 2 4 0 rfl).1,
    (claim_C5 freshEngine 1 NashvilleNumber.n5 2 4 0 rfl).2.2.1⟩

/-- Claim C7: stop() followed by start() on a progression with a positive
    loop length resets `currentChordIndex` and `currentBeat` to 0, and the
    action trace of start() contains exactly one notification — the
    chord-change for slot 0 — emitted after scheduling but before the
    transport is started. -/
theorem claim_C7 (s : EngineState) (c0 : ChordEvent) (rest : List ChordEvent)
    (hce : s.chordEvents = c0 :: rest)
    (hpos : 0 < s.chordEvents.foldl (fun sum c => sum + c.bars) 0
        + (s.chordEvents.foldl (fun sum c => sum + c.beats) 0 + 3) / 4) :
    (start (stop s)).1.currentChordIndex = 0
      ∧ (start (stop s)).1.currentBeat = 0
      ∧ (start (stop s)).1.isPlaying = true
      ∧ ∃ events : List SEvent,
          (start (stop s)).2
            = [Action.toneStart, Action.transportCancel, Action.scheduleAll events,
               Action.emitChordChange c0.nashville
                 (getChordName s.currentKey c0.nashville) 0,
               Action.transportStart] := by
  obtain ⟨h1, h2, h3, h4, h5⟩ := stop_fields s
  have hne : ¬((c0 :: rest).foldl (fun sum c => sum + c.bars) 0
      + ((c0 :: rest).foldl (fun sum c => sum + c.beats) 0 + 3) / 4 = 0) := by
    rw [← hce]
    omega
  simp only [start, h1, h2, h3, hce, Bool.false_eq_true, if_false, hne, ite_false]
  simp

/-- Claim C7 witness: stopping a playing engine midway through the default
    progression and starting again resets the position and notifies slot 0
    first. -/
theorem claim_C7_witness :
    midwayState.chordEvents
        = { nashville := NashvilleNumber.n1, bars := 2, beats := 0 }
          :: [{ nashville := NashvilleNumber.n4, bars := 2, beats := 0 },
              { nashville := NashvilleNumber.n5, bars := 2, beats := 0 },
              { nashville := NashvilleNumber.n1, bars := 2, beats := 0 }]
      ∧ ((start (stop midwayState)).1.currentChordIndex = 0
          ∧ (start (stop midwayState)).1.currentBeat = 0
          ∧ (start (stop midwayState)).1.isPlaying = true
          ∧ ∃ events : List SEvent,
              (start (stop midwayState)).2
                = [Action.toneStart, Action.transportCancel, Action.scheduleAll events,
                   Action.emitChordChange NashvilleNumber.n1
                     (getChordName midwayState.currentKey NashvilleNumber.n1) 0,
                   Action.transportStart]) :=
  ⟨rfl,
   claim_C7 midwayState
     { nashville := NashvilleNumber.n1, bars := 2, beats := 0 }
     [{ nashville := NashvilleNumber.n4, bars := 2, beats := 0 },
      { nashville := NashvilleNumber.n5, bars := 2, beats := 0 },
      { nashville := NashvilleNumber.n1, bars := 2, beats := 0 }]
     rfl (by decide)⟩

/-- Claim C8: the audio trigger of a strum is issued a fixed 100 ms lead
    before the nominal transport time, clamped not to go below 0 (so it is
    never later than nominal, exactly nominal minus 1/10 s once the nominal
    time reaches 1/10 s), while every reported beat-tick position carries the
    progress fraction computed from its nominal, uncompensated beat offset. -/
theorem claim_C8 :
    (∀ t : ℚ, 0 ≤ t →
        adjustedTime t ≤ t ∧ t - adjustedTime t ≤ 1 / 10
          ∧ (1 / 10 ≤ t → adjustedTime t = t - 1 / 10))
    ∧ (∀ (sf : StrumFrequency) (tb : Nat) (chords : List ChordEvent)
          (i off beatNum o : Nat) (p : ℚ),
        SEvent.beatTick beatNum o p ∈ scheduleEventsAux sf tb i off chords →
          p = (o : ℚ) / (tb : ℚ)) := by
  constructor
  · intro t ht
    unfold adjustedTime
    rcases le_total (t - 1 / 10) 0 with h | h
    · rw [max_eq_left h]
      exact ⟨ht, by linarith, fun h10 => by linarith⟩
    · rw [max_eq_right h]
      exact ⟨by linarith, by linarith, fun _ => rfl⟩
  · intro sf tb chords i off b o p h
    exact beatTick_progress sf tb chords i off b o p h

/-- Claim C8 witness: the lead applied at nominal time 2/10 s is exactly
    1/10 s, and the first beat tick of a one-bar slot carries progress
    0 / 4. -/
theorem claim_C8_witness :
    adjustedTime (2 / 10) = 2 / 10 - 1 / 10
      ∧ (((0 + 0 : Nat) : ℚ) / ((4 : Nat) : ℚ) = ((0 : Nat) : ℚ) / ((4 : Nat) : ℚ)) :=
  ⟨(claim_C8.1 (2 / 10) (by norm_num)).2.2 (by norm_num),
   claim_C8.2 StrumFrequency.four 4
     [{ nashville := NashvilleNumber.n1, bars := 1, beats := 0 }]
     0 0 0 0 (((0 + 0 : Nat) : ℚ) / ((4 : Nat) : ℚ))
     (by simp [scheduleEventsAux, strumOffsets])⟩

end Strum
